import Mathlib

/-!
Verification development for the project-starter-guide repository.

This file gives a shallow embedding of the two security-sensitive cores of
the repository and proves the frozen claims about them:

* the SSRF URL-safety validator of the API service template
  (`src/unnamed/part_004`: `validateURL`, `validateDNS`, `isBlockedIP`,
  `isBlockedHostname`, `createPinnedLookup`, `createPinnedAgent`), and
* the license signature service of the monetization toolkit
  (`src/templates/monetization/lib/licensing.js` and
  `lib/stripe-integration.js`: `verifyLicenseSignature`,
  `generateLicenseKey`, `signLicensePayload`, `getSigningSecret`,
  `validateLicenseKey`, `getLicenseInfo`).

Modelling conventions:

* JavaScript strings are modelled as `List Char` (`Str` below).  The
  byte-level buffer comparison of signatures is modelled as equality of
  char lists (UTF-8 encoding is injective, so the outcome agrees).
* Cryptographic primitives (SHA-256 and HMAC-SHA256, both hex-encoded)
  are modelled as oracle parameters `sha256hex : Str → Str` and
  `hmac : Str → Str → Str`; claims that need collision-freeness state it
  as an explicit hypothesis on the oracle.
* External I/O (the DNS lookup, the template placeholders
  `PROJECT_SLUG` / `LICENSE_PREFIX` substituted at template
  instantiation time, `process.env`, the license file, `Date` parsing)
  is threaded through as explicit environment parameters.
* Thrown JavaScript exceptions are modelled with `Except`; a
  `try`/`catch` is the corresponding `match` on the `Except` value.
-/

/-- JavaScript strings, modelled as lists of characters. -/
abbrev Str := List Char

/-- Decidable character-range test (used to model regex character classes
such as `[0-9]` or `[A-F]`). -/
def charBetween (lo hi c : Char) : Bool := decide (lo ≤ c ∧ c ≤ hi)

/-- Model of `String.prototype.toLowerCase` (ASCII is all the source needs). -/
def lowerStr (s : Str) : Str := s.map Char.toLower

/-- Model of `String.prototype.toUpperCase` (ASCII is all the source needs). -/
def upperStr (s : Str) : Str := s.map Char.toUpper

/-- Decimal digit character for a digit value (0–9); values ≥ 9 clamp to
`'9'`, which never occurs on inputs the code produces. -/
def digitChar : Nat → Char
  | 0 => '0' | 1 => '1' | 2 => '2' | 3 => '3' | 4 => '4'
  | 5 => '5' | 6 => '6' | 7 => '7' | 8 => '8' | _ => '9'

/-- Fuel-driven decimal printer (structural recursion so that the kernel
can evaluate it). -/
def natDigitsAux : Nat → Nat → Str
  | 0, _ => []
  | fuel + 1, n =>
    if n < 10 then [digitChar n]
    else natDigitsAux fuel (n / 10) ++ [digitChar (n % 10)]

/-- Decimal representation of a natural number, as JavaScript prints
integers (e.g. in template literals and `JSON.stringify`). -/
def natDigits (n : Nat) : Str := natDigitsAux (n + 1) n

/-- Numeric value of a decimal digit character. -/
def digitVal (c : Char) : Nat := c.toNat - 48

/-- Value of a decimal digit string (used to prove `natDigits` injective). -/
def digitsVal (s : Str) : Nat := s.foldl (fun acc c => 10 * acc + digitVal c) 0

/-- Decimal digit character test. -/
def isDigitCh (c : Char) : Bool := charBetween '0' '9' c

/-! ## SSRF protection middleware (`src/unnamed/part_004`)

Each entry of the source's `BLOCKED_IP_RANGES` array of regular
expressions is modelled as a decidable matcher on the address string.
All of the source's patterns are anchored at the start (`^…`) or are
full-string matches (`^…$`); the matchers below mirror them one by one,
in the source's order. -/

/-- Regex `^10\.` — RFC 1918 10.0.0.0/8. -/
def re10 (ip : Str) : Bool := ("10.".toList).isPrefixOf ip

/-- Character-class part of `^172\.(1[6-9]|2[0-9]|3[0-1])\.`. -/
def octets172 (a b : Char) : Bool :=
  (a == '1' && charBetween '6' '9' b) ||
  (a == '2' && charBetween '0' '9' b) ||
  (a == '3' && charBetween '0' '1' b)

/-- Regex `^172\.(1[6-9]|2[0-9]|3[0-1])\.` — RFC 1918 172.16.0.0/12. -/
def re172 (ip : Str) : Bool :=
  match ip with
  | '1' :: '7' :: '2' :: '.' :: a :: b :: '.' :: _ => octets172 a b
  | _ => false

/-- Regex `^192\.168\.` — RFC 1918 192.168.0.0/16. -/
def re192168 (ip : Str) : Bool := ("192.168.".toList).isPrefixOf ip

/-- Regex `^127\.` — loopback. -/
def re127 (ip : Str) : Bool := ("127.".toList).isPrefixOf ip

/-- Regex `^169\.254\.` — link-local. -/
def re169254 (ip : Str) : Bool := ("169.254.".toList).isPrefixOf ip

/-- Two-digit alternatives `6[4-9]|[7-9][0-9]` of the carrier-grade NAT
pattern, applied after the `100.` prefix. -/
def cgn2 (t : Str) : Bool :=
  match t with
  | a :: b :: '.' :: _ =>
    (a == '6' && charBetween '4' '9' b) || (charBetween '7' '9' a && charBetween '0' '9' b)
  | _ => false

/-- Three-digit alternatives `1[0-1][0-9]|12[0-7]` of the carrier-grade
NAT pattern, applied after the `100.` prefix. -/
def cgn3 (t : Str) : Bool :=
  match t with
  | '1' :: b :: c :: '.' :: _ =>
    ((b == '0' || b == '1') && charBetween '0' '9' c) || (b == '2' && charBetween '0' '7' c)
  | _ => false

/-- Regex `^100\.(6[4-9]|[7-9][0-9]|1[0-1][0-9]|12[0-7])\.` — carrier-grade NAT. -/
def re100 (ip : Str) : Bool :=
  match ip with
  | '1' :: '0' :: '0' :: '.' :: t => cgn2 t || cgn3 t
  | _ => false

/-- Regex `^0\.` — "this host" 0.0.0.0/8. -/
def re0 (ip : Str) : Bool := ("0.".toList).isPrefixOf ip

/-- Regex `^192\.0\.2\.` — documentation range. -/
def re19202 (ip : Str) : Bool := ("192.0.2.".toList).isPrefixOf ip

/-- Regex `^198\.51\.100\.` — documentation range. -/
def re1851100 (ip : Str) : Bool := ("198.51.100.".toList).isPrefixOf ip

/-- Regex `^203\.0\.113\.` — documentation range. -/
def re2030113 (ip : Str) : Bool := ("203.0.113.".toList).isPrefixOf ip

/-- Regex `^::1$` — IPv6 loopback (full-string match). -/
def reV6Loop (ip : Str) : Bool := ip == "::1".toList

/-- Regex `^::$` — IPv6 unspecified (full-string match). -/
def reV6Unspec (ip : Str) : Bool := ip == "::".toList

/-- Regex `^0:0:0:0:0:0:0:1$` (full-string match). -/
def reV6LoopLong (ip : Str) : Bool := ip == "0:0:0:0:0:0:0:1".toList

/-- Regex `^0:0:0:0:0:0:0:0$` (full-string match). -/
def reV6UnspecLong (ip : Str) : Bool := ip == "0:0:0:0:0:0:0:0".toList

/-- Regex `^fc00:/i` — IPv6 unique local. -/
def reFc00 (ip : Str) : Bool := ("fc00:".toList).isPrefixOf (lowerStr ip)

/-- Regex `^fd00:/i` — IPv6 unique local. -/
def reFd00 (ip : Str) : Bool := ("fd00:".toList).isPrefixOf (lowerStr ip)

/-- Regex `^fe80:/i` — IPv6 link-local. -/
def reFe80 (ip : Str) : Bool := ("fe80:".toList).isPrefixOf (lowerStr ip)

/-- Strips a case-insensitive `::ffff:` prefix, for the IPv4-mapped IPv6
patterns (all flagged `/i` in the source). -/
def mappedTail (ip : Str) : Option Str :=
  match lowerStr ip with
  | ':' :: ':' :: 'f' :: 'f' :: 'f' :: 'f' :: ':' :: rest => some rest
  | _ => none

/-- Regex `^::ffff:10\./i`. -/
def reMapped10 (ip : Str) : Bool :=
  match mappedTail ip with
  | some rest => re10 rest
  | none => false

/-- Regex `^::ffff:172\.(1[6-9]|2[0-9]|3[0-1])\./i`. -/
def reMapped172 (ip : Str) : Bool :=
  match mappedTail ip with
  | some rest => re172 rest
  | none => false

/-- Regex `^::ffff:192\.168\./i`. -/
def reMapped192168 (ip : Str) : Bool :=
  match mappedTail ip with
  | some rest => re192168 rest
  | none => false

/-- Regex `^::ffff:127\./i`. -/
def reMapped127 (ip : Str) : Bool :=
  match mappedTail ip with
  | some rest => re127 rest
  | none => false

/-- Regex `^::ffff:0\./i`. -/
def reMapped0 (ip : Str) : Bool :=
  match mappedTail ip with
  | some rest => re0 rest
  | none => false

/-- The source's `BLOCKED_IP_RANGES` array, in order. -/
def BLOCKED_IP_RANGES : List (Str → Bool) :=
  [re10, re172, re192168, re127, re169254, re100, re0,
   re19202, re1851100, re2030113,
   reV6Loop, reV6Unspec, reV6LoopLong, reV6UnspecLong,
   reFc00, reFd00, reFe80,
   reMapped10, reMapped172, reMapped192168, reMapped127, reMapped0]

/-- Regex `^169\.254\.169\.254$` — the cloud metadata IP (full-string match). -/
def reMetadataIP (ip : Str) : Bool := ip == "169.254.169.254".toList

/-- The source's `METADATA_IP_RANGES` array. -/
def METADATA_IP_RANGES : List (Str → Bool) := [reMetadataIP]

/-- The source's `BLOCKED_HOSTNAMES` array. -/
def BLOCKED_HOSTNAMES : List Str :=
  ["localhost".toList, "localhost.localdomain".toList,
   "kubernetes.default".toList, "kubernetes.default.svc".toList]

/-- The source's `METADATA_HOSTNAMES` array. -/
def METADATA_HOSTNAMES : List Str :=
  ["metadata.google.internal".toList, "metadata".toList]

/-- The source's `BLOCKED_PORTS` array. -/
def BLOCKED_PORTS : List Nat := [22, 25, 3306, 5432, 6379, 27017, 9200, 9300]

/-- Model of `isBlockedIP`: tests the address against every pattern of
`BLOCKED_IP_RANGES`, plus `METADATA_IP_RANGES` when metadata endpoints
are blocked. -/
def isBlockedIP (ip : Str) (blockMetadataEndpoints : Bool) : Bool :=
  (if blockMetadataEndpoints then BLOCKED_IP_RANGES ++ METADATA_IP_RANGES
   else BLOCKED_IP_RANGES).any (fun pat => pat ip)

/-- Model of `isBlockedHostname`: case-insensitive exact or subdomain
match against the blocked hostname lists. -/
def isBlockedHostname (hostname : Str) (blockMetadataEndpoints : Bool) : Bool :=
  let lowerHostname := lowerStr hostname
  (if blockMetadataEndpoints then BLOCKED_HOSTNAMES ++ METADATA_HOSTNAMES
   else BLOCKED_HOSTNAMES).any
    (fun blocked => lowerHostname == blocked || ('.' :: blocked).isSuffixOf lowerHostname)

/-- Parsed URL, as produced by the WHATWG `URL` constructor: the fields
`validateURL` reads.  `port` is `none` when the URL carries no explicit
port (the constructor normalises an explicit default port away). -/
structure URLRec where
  protocol : Str
  hostname : Str
  port : Option Nat
deriving DecidableEq

/-- The source's `ALLOWED_PROTOCOLS` array. -/
def ALLOWED_PROTOCOLS : List Str := ["http:".toList, "https:".toList]

/-- Model of `getDefaultPort`. -/
def getDefaultPort (protocol : Str) : Nat :=
  if protocol == "https:".toList then 443 else 80

/-- Model of `validateProtocol`: `none` is the source's `null` (pass). -/
def validateProtocol (url : URLRec) : Option Str :=
  if ALLOWED_PROTOCOLS.contains url.protocol then none
  else some ("Protocol ".toList ++ url.protocol ++ " is not allowed".toList)

/-- Model of `validatePort`. -/
def validatePort (url : URLRec) (allowedPorts : Option (List Nat)) : Option Str :=
  let port := match url.port with
    | some p => p
    | none => getDefaultPort url.protocol
  if BLOCKED_PORTS.contains port then
    some ("Port ".toList ++ natDigits port ++ " is blocked".toList)
  else
    match allowedPorts with
    | some ports =>
      if ports.contains port then none
      else some ("Port ".toList ++ natDigits port ++ " is not allowed".toList)
    | none => none

/-- Model of `validateDomain`. -/
def validateDomain (url : URLRec) (allowedDomains : List Str) : Option Str :=
  if allowedDomains.isEmpty then none
  else if allowedDomains.any
      (fun domain => url.hostname == domain || ('.' :: domain).isSuffixOf url.hostname)
    then none
  else some ("Domain not in allowed list".toList)

/-- Outcome of `withTimeout(dns.promises.lookup(hostname, \x7ball: true\x7d), 2000)`:
either the lookup resolved to a list of addresses, or it rejected — with
the distinct `Error('DNS lookup timeout')` raised by `withTimeout`, or
with an ordinary resolver error. -/
inductive DNSOutcome where
  | timeout
  | failure
  | success (addresses : List Str)

/-- Result record of `validateDNS` (`\x7berror, addresses\x7d`). -/
structure DNSValidation where
  error : Option Str
  addresses : Option (List Str)
deriving DecidableEq

/-- Model of `validateDNS`.  Note the `catch` branch returns the single
message `'Failed to resolve hostname'` for every rejection, timeouts
included; the distinct timeout message only reaches the logger. -/
def validateDNS (outcome : DNSOutcome) (blockMetadataEndpoints : Bool) : DNSValidation :=
  match outcome with
  | .timeout => ⟨some ("Failed to resolve hostname".toList), none⟩
  | .failure => ⟨some ("Failed to resolve hostname".toList), none⟩
  | .success addresses =>
    if addresses.any (fun address => isBlockedIP address blockMetadataEndpoints) then
      ⟨some ("URL resolves to a blocked IP address".toList), none⟩
    else ⟨none, some addresses⟩

/-- Caller-supplied `SSRFOptions` (every field optional, as in the TS
interface; an absent field and an explicitly-`undefined` field are
conflated, which no claim distinguishes). -/
structure SSRFOptions where
  allowedDomains : Option (List Str) := none
  allowedPorts : Option (List Nat) := none
  blockPrivateIPs : Option Bool := none
  blockMetadataEndpoints : Option Bool := none

/-- The result of spreading caller options over `defaultOptions`. -/
structure MergedOptions where
  allowedDomains : List Str
  allowedPorts : Option (List Nat)
  blockPrivateIPs : Bool
  blockMetadataEndpoints : Bool

/-- Model of `\x7b ...defaultOptions, ...options \x7d` with
`defaultOptions = \x7ballowedDomains: [], allowedPorts: undefined,
blockPrivateIPs: true, blockMetadataEndpoints: true\x7d`. -/
def mergeOptions (o : SSRFOptions) : MergedOptions :=
  ⟨o.allowedDomains.getD [], o.allowedPorts,
   o.blockPrivateIPs.getD true, o.blockMetadataEndpoints.getD true⟩

/-- The `ValidationResult` record of the source. -/
structure ValidationResult where
  valid : Bool
  error : Option Str := none
  url : Option URLRec := none
  resolvedAddresses : Option (List Str) := none
deriving DecidableEq

/-- Model of `validateURL`.  `parsed` is the outcome of `new URL(urlString)`
(`none` = the constructor threw); `dnsEnv` is the DNS environment giving
the outcome of the bounded lookup for each hostname. -/
def validateURL (parsed : Option URLRec) (options : SSRFOptions)
    (dnsEnv : Str → DNSOutcome) : ValidationResult :=
  let opts := mergeOptions options
  let blockMetadata := opts.blockMetadataEndpoints
  match parsed with
  | none => { valid := false, error := some ("Invalid URL format".toList) }
  | some url =>
    match validateProtocol url with
    | some protocolError => { valid := false, error := some protocolError }
    | none =>
      if isBlockedHostname url.hostname blockMetadata then
        { valid := false, error := some ("Hostname is blocked".toList) }
      else
        match validatePort url opts.allowedPorts with
        | some portError => { valid := false, error := some portError }
        | none =>
          match validateDomain url opts.allowedDomains with
          | some domainError => { valid := false, error := some domainError }
          | none =>
            if opts.blockPrivateIPs then
              match (validateDNS (dnsEnv url.hostname) blockMetadata).error,
                    (validateDNS (dnsEnv url.hostname) blockMetadata).addresses with
              | some dnsError, _ => { valid := false, error := some dnsError }
              | none, addresses =>
                { valid := true, url := some url, resolvedAddresses := addresses }
            else { valid := true, url := some url, resolvedAddresses := none }

/-- One call of the closure returned by `createPinnedLookup`: reads the
current `index`, answers `addresses[index % addresses.length]`, and
increments `index`.  `none` models the `undefined` a JS out-of-range
index would yield (only possible for an empty list, which
`createPinnedAgent` rules out). -/
def pinnedCall (addresses : List Str) (index : Nat) : Option Str × Nat :=
  (addresses[index % addresses.length]?, index + 1)

/-- Index held by the pinned-lookup closure after `n` calls (it starts
at 0). -/
def pinnedIndexAfter (addresses : List Str) : Nat → Nat
  | 0 => 0
  | n + 1 => (pinnedCall addresses (pinnedIndexAfter addresses n)).2

/-- Address answered by the `n`-th invocation (counting from 0) of the
lookup closure installed by `createPinnedLookup`. -/
def nthPinnedAddress (addresses : List Str) (n : Nat) : Option Str :=
  (pinnedCall addresses (pinnedIndexAfter addresses n)).1

/-- Model of `createPinnedAgent`: returns no agent when there are no
resolved addresses, otherwise an agent whose `lookup` is the pinned
closure (represented by the address list that fully determines it). -/
def createPinnedAgent (resolvedAddresses : Option (List Str)) : Option (List Str) :=
  match resolvedAddresses with
  | none => none
  | some [] => none
  | some addresses => some addresses

/-! ## License signature service
(`src/templates/monetization/lib/licensing.js` and
`src/templates/monetization/lib/stripe-integration.js`)

The template placeholders `PROJECT_SLUG` and `LICENSE_PREFIX` are
substituted when a product instantiates the template; they appear below
as the parameters `slug` and `licPrefix`. -/

/-- Decidable equality for `Except`, so that concrete runs of the
fallible license operations can be checked by `decide`. -/
instance {ε α : Type} [DecidableEq ε] [DecidableEq α] : DecidableEq (Except ε α)
  | .ok a, .ok b =>
    if h : a = b then .isTrue (by rw [h]) else .isFalse (by simp [h])
  | .ok _, .error _ => .isFalse (by simp)
  | .error _, .ok _ => .isFalse (by simp)
  | .error e, .error f =>
    if h : e = f then .isTrue (by rw [h]) else .isFalse (by simp [h])

/-- The `process.env` fields the license code reads. -/
structure EnvConfig where
  nodeEnv : Option Str := none
  licenseSigningSecret : Option Str := none
deriving DecidableEq

/-- Model of `process.env.X || fallback` (an unset or empty environment
variable is falsy and yields the fallback). -/
def jsEnvOr (v : Option Str) (fallback : Str) : Str :=
  match v with
  | some s => if s.isEmpty then fallback else s
  | none => fallback

/-- Model of `haystack.includes(needle)` (substring containment). -/
def strIncludes : Str → Str → Bool
  | [], needle => needle.isEmpty
  | c :: rest, needle => needle.isPrefixOf (c :: rest) || strIncludes rest needle

/-- The hardcoded development fallback secret
`'PROJECT_SLUG-dev-secret-change-in-prod'`. -/
def devFallbackSecret (slug : Str) : Str := slug ++ "-dev-secret-change-in-prod".toList

/-- Model of `StripeIntegration.getSigningSecret` (the same secret
selection is inlined in `licensing.js`'s `verifyLicenseSignature`):
resolves the secret from the environment with the development fallback,
and throws when running in production while the secret still contains
the development fallback. -/
def getSigningSecret (slug : Str) (env : EnvConfig) : Except Str Str :=
  let secret := jsEnvOr env.licenseSigningSecret (devFallbackSecret slug)
  if env.nodeEnv == some ("production".toList) && strIncludes secret (devFallbackSecret slug) then
    .error ("LICENSE_SIGNING_SECRET is required in production".toList)
  else .ok secret

/-- The license payload built by `generateLicenseKey`:
`\x7b customerId, tier, isFounder, issued: Date.now(), version: '1.0' \x7d`. -/
structure LicensePayload where
  customerId : Str
  tier : Str
  isFounder : Bool
  issued : Nat
  version : Str
deriving DecidableEq

/-- Quotation-mark character (escaped in JSON string values). -/
def qc : Char := Char.ofNat 34

/-- Backslash character (escaped in JSON string values). -/
def bsl : Char := Char.ofNat 92

/-- JSON escape of one character, as `JSON.stringify` performs it on the
characters that can occur here (control-character escapes are not
modelled; they do not affect injectivity of the encoding). -/
def escChar (c : Char) : Str :=
  if c = qc then [bsl, qc] else if c = bsl then [bsl, bsl] else [c]

/-- JSON escape of a string value. -/
def escape : Str → Str
  | [] => []
  | c :: rest => escChar c ++ escape rest

/-- JavaScript boolean serialization (`String(b)` and `JSON.stringify(b)`). -/
def boolLit (b : Bool) : Str := if b then "true".toList else "false".toList

/-- Model of `JSON.stringify(payload)` for the license payload.  JS
object properties serialize in insertion order, which both creation
sites fix as customerId, tier, isFounder, issued, version. -/
def jsonSerialize (p : LicensePayload) : Str :=
  "\x7b\"customerId\":\"".toList ++ escape p.customerId ++
  "\",\"tier\":\"".toList ++ escape p.tier ++
  "\",\"isFounder\":".toList ++ boolLit p.isFounder ++
  ",\"issued\":".toList ++ natDigits p.issued ++
  ",\"version\":\"".toList ++ escape p.version ++
  "\"\x7d".toList

/-- Model of `signLicensePayload`: HMAC-SHA256 of the serialized payload
under the configured secret (`hmac` is the hex-encoded HMAC oracle);
propagates `getSigningSecret`'s production error. -/
def signLicensePayload (hmac : Str → Str → Str) (slug : Str) (env : EnvConfig)
    (payload : LicensePayload) : Except Str Str :=
  (getSigningSecret slug env).map (fun secret => hmac secret (jsonSerialize payload))

/-- Model of `crypto.timingSafeEqual` on two equal-length buffers: byte
equality (the timing property itself is not representable here). -/
def timingSafeEqualModel (a b : Str) : Bool := a == b

/-- Model of `StripeIntegration.verifyLicenseSignature` — note this
variant has no `try`/`catch`, so `getSigningSecret`'s production error
propagates to the caller: recompute the expected signature, reject on
buffer-length mismatch, else compare timing-safely. -/
def stripeVerifyLicenseSignature (hmac : Str → Str → Str) (slug : Str) (env : EnvConfig)
    (payload : LicensePayload) (signature : Str) : Except Str Bool :=
  (signLicensePayload hmac slug env payload).map (fun expected =>
    if signature.length != expected.length then false
    else timingSafeEqualModel signature expected)

/-- Model of `licensing.js`'s `verifyLicenseSignature`: the same
algorithm (secret selection with the production check, HMAC, length
check, timing-safe comparison), wrapped in a `try`/`catch` that logs and
returns `false` on any thrown error. -/
def verifyLicenseSignature (hmac : Str → Str → Str) (slug : Str) (env : EnvConfig)
    (payload : LicensePayload) (signature : Str) : Bool :=
  match stripeVerifyLicenseSignature hmac slug env payload signature with
  | .ok b => b
  | .error _ => false

/-- The triple returned by `generateLicenseKey`. -/
structure GeneratedLicense where
  licenseKey : Str
  payload : LicensePayload
  signature : Str
deriving DecidableEq

/-- Model of `hash.slice(0, 16).match(/.\x7b4\x7d/g)`: successive complete
4-character groups (a shorter trailing remainder is not matched). -/
def chunk4 : Str → List Str
  | a :: b :: c :: d :: rest => [a, b, c, d] :: chunk4 rest
  | _ => []

/-- Model of the key formatting in `generateLicenseKey`:
`LICENSE_PREFIX + '-' + keyParts.join('-').toUpperCase()`. -/
def formatLicenseKey (licPrefix : Str) (hashHex : Str) : Str :=
  licPrefix ++ '-' :: upperStr (List.intercalate ['-'] (chunk4 (hashHex.take 16)))

/-- The deterministic hash input of `generateLicenseKey`:
`customerId + ':' + tier + ':' + isFounder + ':' + PROJECT_SLUG + '-license-v1'`. -/
def licenseKeyHashInput (slug customerId tier : Str) (isFounder : Bool) : Str :=
  customerId ++ ':' :: tier ++ ':' :: boolLit isFounder ++ ':' :: slug ++ "-license-v1".toList

/-- Model of `StripeIntegration.generateLicenseKey` (`sha256hex` is the
hex-encoded SHA-256 oracle; `now` is `Date.now()`); propagates the
production-secret error of `signLicensePayload`. -/
def generateLicenseKey (sha256hex : Str → Str) (hmac : Str → Str → Str)
    (slug licPrefix : Str) (env : EnvConfig)
    (customerId tier : Str) (isFounder : Bool) (now : Nat) :
    Except Str GeneratedLicense :=
  let payload : LicensePayload := ⟨customerId, tier, isFounder, now, "1.0".toList⟩
  (signLicensePayload hmac slug env payload).map (fun signature =>
    ⟨formatLicenseKey licPrefix (sha256hex (licenseKeyHashInput slug customerId tier isFounder)),
     payload, signature⟩)

/-- Character class `[A-F0-9]` of the Stripe key regex. -/
def isHexUpperDigit (c : Char) : Bool := charBetween 'A' 'F' c || charBetween '0' '9' c

/-- Tail of the Stripe key regex after the literal prefix and first dash:
exactly four dash-separated groups of four `[A-F0-9]` characters,
anchored at the end. -/
def stripeKeyTail : Str → Bool
  | [a1, a2, a3, a4, '-', b1, b2, b3, b4, '-', c1, c2, c3, c4, '-', d1, d2, d3, d4] =>
    [a1, a2, a3, a4, b1, b2, b3, b4, c1, c2, c3, c4, d1, d2, d3, d4].all isHexUpperDigit
  | _ => false

/-- Model of the test of
`/^LICENSE_PREFIX-[A-F0-9]\x7b4\x7d-[A-F0-9]\x7b4\x7d-[A-F0-9]\x7b4\x7d-[A-F0-9]\x7b4\x7d$/`
(the substituted prefix is a plain slug, without regex metacharacters). -/
def stripeFormatTest (licPrefix key : Str) : Bool :=
  (licPrefix ++ ['-']).isPrefixOf key && stripeKeyTail (key.drop (licPrefix.length + 1))

/-- Model of `licensing.js`'s `validateLicenseKey`: a key matching the
Stripe format is accepted outright; otherwise the legacy check
`key.startsWith(LICENSE_PREFIX + '-' + tier.toUpperCase() + '-') && key.length > 20`. -/
def validateLicenseKey (licPrefix : Str) (key tier : Str) : Bool :=
  if stripeFormatTest licPrefix key then true
  else (licPrefix ++ '-' :: upperStr tier ++ ['-']).isPrefixOf key && decide (key.length > 20)

/-- Fields of the parsed `license.json` that `getLicenseInfo` reads;
`none` models an absent (`undefined`) property.  The stored `payload`
is modelled structurally (a tampered signature is representable as any
signature that fails verification). -/
structure LicenseFileData where
  tier : Option Str := none
  licenseKey : Option Str := none
  key : Option Str := none
  email : Option Str := none
  expires : Option Str := none
  isFounder : Option Bool := none
  customerId : Option Str := none
  payload : Option LicensePayload := none
  signature : Option Str := none

/-- State of the license file on disk. -/
inductive LicenseFileState where
  | absent
  | unreadable
  | malformed
  | stored (data : LicenseFileData)

/-- Environment of `getLicenseInfo`: outcome of the developer-mode
check, the license file state, the `Date` parser (`none` = Invalid
Date, whose comparisons are all false), and the current time. -/
structure LicEnvironment where
  developerMode : Bool
  file : LicenseFileState
  dateParse : Str → Option Int
  now : Int

/-- The record returned by `getLicenseInfo` (absent JS properties are
`none` / `false`). -/
structure LicenseInfo where
  tier : Str
  valid : Bool
  email : Option Str := none
  expires : Option Str := none
  isFounder : Option Bool := none
  customerId : Option Str := none
  signed : Bool := false
  legacy : Bool := false
  isDeveloper : Bool := false
  error : Option Str := none
deriving DecidableEq

/-- Truthiness of an optional JS string (absent and empty are falsy). -/
def jsFalsyStr (o : Option Str) : Bool :=
  match o with
  | none => true
  | some s => s.isEmpty

/-- Model of JS `a || b` on optional strings. -/
def jsOrStr (a b : Option Str) : Option Str := if jsFalsyStr a then b else a

/-- Model of the expiry test
`licenseData.expires && new Date(licenseData.expires) < new Date()`. -/
def licenseExpired (dateParse : Str → Option Int) (now : Int) (expires : Option Str) : Bool :=
  match expires with
  | none => false
  | some e =>
    if e.isEmpty then false
    else match dateParse e with
      | some t => decide (t < now)
      | none => false

/-- Model of the signed-branch guard
`licenseData.payload && licenseData.signature` (an object is always
truthy; an empty signature string is falsy). -/
def signedLicenseParts (payload : Option LicensePayload) (signature : Option Str) :
    Option (LicensePayload × Str) :=
  match payload, signature with
  | some pl, some sig => if sig.isEmpty then none else some (pl, sig)
  | _, _ => none

/-- Model of `licensing.js`'s `getLicenseInfo`.  The surrounding
`try`/`catch` shows up as the `unreadable`/`malformed` branches (a file
read error or `JSON.parse` error lands in the catch). -/
def getLicenseInfo (hmac : Str → Str → Str) (slug licPrefix : Str) (env : EnvConfig)
    (lenv : LicEnvironment) : LicenseInfo :=
  if lenv.developerMode then
    { tier := "PRO".toList, valid := true, email := some ("developer@localhost".toList),
      isDeveloper := true }
  else
    match lenv.file with
    | .absent => { tier := "FREE".toList, valid := true }
    | .unreadable =>
      { tier := "FREE".toList, valid := true, error := some ("License read error".toList) }
    | .malformed =>
      { tier := "FREE".toList, valid := true, error := some ("License read error".toList) }
    | .stored d =>
      let licenseKey := jsOrStr d.licenseKey d.key
      if jsFalsyStr d.tier || jsFalsyStr licenseKey || jsFalsyStr d.email then
        { tier := "FREE".toList, valid := true, error := some ("Invalid license format".toList) }
      else if licenseExpired lenv.dateParse lenv.now d.expires then
        { tier := "FREE".toList, valid := true, error := some ("License expired".toList) }
      else
        match signedLicenseParts d.payload d.signature with
        | some (pl, sig) =>
          if verifyLicenseSignature hmac slug env pl sig then
            { tier := d.tier.getD [], valid := true, email := d.email, expires := d.expires,
              isFounder := d.isFounder, customerId := d.customerId, signed := true }
          else
            { tier := "FREE".toList, valid := true,
              error := some ("License signature verification failed - license may have been tampered with".toList) }
        | none =>
          if validateLicenseKey licPrefix (licenseKey.getD []) (d.tier.getD []) then
            { tier := d.tier.getD [], valid := true, email := d.email, expires := d.expires,
              legacy := true }
          else
            { tier := "FREE".toList, valid := true, error := some ("Invalid license key".toList) }

/-! ## Auxiliary definitions used to state the claims -/

/-- Dotted-quad IPv4 literal built from four octet values, as it appears
as a URL hostname (e.g. `ipLiteral 10 0 0 1` is the string `10.0.0.1`). -/
def ipLiteral (a b c d : Nat) : Str :=
  natDigits a ++ '.' :: natDigits b ++ '.' :: natDigits c ++ '.' :: natDigits d

/-- The hostname `localhost` or any subdomain of it, case-insensitively
(the hostname family claim C3 singles out). -/
def isLocalhostFamily (h : Str) : Bool :=
  lowerStr h == "localhost".toList || ('.' :: "localhost".toList).isSuffixOf (lowerStr h)

/-- Checks that a string is a two-character octet matching the
`(1[6-9]|2[0-9]|3[0-1])` class of the 172.16.0.0/12 pattern. -/
def digitsPair172OK : Str → Bool
  | [x, y] => octets172 x y
  | _ => false

/-! ## Lemmas: strings and decimal digits -/

theorem isPrefixOf_append_left (p s : Str) : p.isPrefixOf (p ++ s) = true := by
  induction p with
  | nil => simp [List.isPrefixOf]
  | cons a as ih => simp [List.isPrefixOf, ih]

theorem digitsVal_append (xs : Str) (c : Char) :
    digitsVal (xs ++ [c]) = 10 * digitsVal xs + digitVal c := by
  simp [digitsVal, List.foldl_append]

theorem digitVal_digitChar (d : Nat) (h : d < 10) : digitVal (digitChar d) = d := by
  have : ∀ e : Fin 10, digitVal (digitChar e.val) = e.val := by decide
  exact this ⟨d, h⟩

theorem digitsVal_natDigitsAux (fuel n : Nat) (h : n < fuel) :
    digitsVal (natDigitsAux fuel n) = n := by
  induction fuel generalizing n with
  | zero => omega
  | succ fuel ih =>
    by_cases hn : n < 10
    · simp [natDigitsAux, hn, digitsVal, digitVal_digitChar n hn]
    · have hn0 : 0 < n := by omega
      have hdiv : n / 10 < n := Nat.div_lt_self hn0 (by omega)
      have : n / 10 < fuel := by omega
      simp [natDigitsAux, hn, digitsVal_append, ih _ this,
        digitVal_digitChar (n % 10) (Nat.mod_lt n (by omega))]
      omega

theorem digitsVal_natDigits (n : Nat) : digitsVal (natDigits n) = n :=
  digitsVal_natDigitsAux (n + 1) n (Nat.lt_succ_self n)

theorem natDigits_injective {m n : Nat} (h : natDigits m = natDigits n) : m = n := by
  have hm := digitsVal_natDigits m
  have hn := digitsVal_natDigits n
  rw [h] at hm
  omega

theorem isDigitCh_digitChar (d : Nat) : isDigitCh (digitChar d) = true := by
  unfold digitChar
  split <;> decide

theorem natDigitsAux_all_digits (fuel n : Nat) :
    (natDigitsAux fuel n).all isDigitCh = true := by
  induction fuel generalizing n with
  | zero => simp [natDigitsAux]
  | succ fuel ih =>
    by_cases hn : n < 10
    · simp [natDigitsAux, hn, isDigitCh_digitChar]
    · simp [natDigitsAux, hn, List.all_append, ih, isDigitCh_digitChar]

theorem natDigits_all_digits (n : Nat) : (natDigits n).all isDigitCh = true :=
  natDigitsAux_all_digits (n + 1) n

/-- Splitting a concatenation at a separator character that cannot occur
in the two left parts recovers the parts. -/
theorem sep_split (P : Char → Bool) (sep : Char) (hsep : P sep = false) :
    ∀ (x y r t : Str), (∀ c ∈ x, P c = true) → (∀ c ∈ y, P c = true) →
      x ++ sep :: r = y ++ sep :: t → x = y ∧ r = t := by
  intro x
  induction x with
  | nil =>
    intro y r t _ hy h
    cases y with
    | nil => simpa using h
    | cons c y' =>
      simp only [List.nil_append, List.cons_append, List.cons.injEq] at h
      have := hy c (by simp)
      rw [← h.1] at this
      rw [this] at hsep
      exact absurd hsep (by simp)
  | cons a x' ih =>
    intro y r t hx hy h
    cases y with
    | nil =>
      simp only [List.cons_append, List.nil_append, List.cons.injEq] at h
      have := hx a (by simp)
      rw [h.1] at this
      rw [this] at hsep
      exact absurd hsep (by simp)
    | cons c y' =>
      simp only [List.cons_append, List.cons.injEq] at h
      obtain ⟨hac, hrest⟩ := h
      obtain ⟨hx'1, hx'2⟩ :=
        ih y' r t (fun e he => hx e (by simp [he])) (fun e he => hy e (by simp [he])) hrest
      exact ⟨by rw [hac, hx'1], hx'2⟩

/-! ## Lemmas: injectivity of the JSON payload serialization -/

theorem escChar_qc : escChar qc = [bsl, qc] := by decide

theorem escChar_bsl : escChar bsl = [bsl, bsl] := by decide

theorem escChar_other {c : Char} (h1 : c ≠ qc) (h2 : c ≠ bsl) : escChar c = [c] := by
  simp [escChar, h1, h2]

theorem escape_cons (c : Char) (rest : Str) : escape (c :: rest) = escChar c ++ escape rest := rfl

/-- A JSON-escaped string followed by an unescaped closing quote can be
split back off uniquely: the escape code never lets a bare quote of the
payload masquerade as the terminator. -/
theorem escape_quote_split : ∀ (x y r t : Str),
    escape x ++ qc :: r = escape y ++ qc :: t → x = y ∧ r = t := by
  intro x
  induction x with
  | nil =>
    intro y r t h
    cases y with
    | nil => simpa using h
    | cons c y' =>
      exfalso
      rw [show escape ([] : Str) = [] from rfl, List.nil_append, escape_cons,
        List.append_assoc] at h
      by_cases h1 : c = qc
      · subst h1
        rw [escChar_qc] at h
        simp only [List.cons_append, List.nil_append] at h
        injection h with h1 _
        exact absurd h1 (by decide)
      · by_cases h2 : c = bsl
        · subst h2
          rw [escChar_bsl] at h
          simp only [List.cons_append, List.nil_append] at h
          injection h with h1 _
          exact absurd h1 (by decide)
        · rw [escChar_other h1 h2] at h
          simp only [List.cons_append, List.nil_append] at h
          injection h with h3 _
          exact h1 h3.symm
  | cons a x' ih =>
    intro y r t h
    cases y with
    | nil =>
      exfalso
      rw [show escape ([] : Str) = [] from rfl, List.nil_append, escape_cons,
        List.append_assoc] at h
      by_cases h1 : a = qc
      · subst h1
        rw [escChar_qc] at h
        simp only [List.cons_append, List.nil_append] at h
        injection h with h1 _
        exact absurd h1 (by decide)
      · by_cases h2 : a = bsl
        · subst h2
          rw [escChar_bsl] at h
          simp only [List.cons_append, List.nil_append] at h
          injection h with h1 _
          exact absurd h1 (by decide)
        · rw [escChar_other h1 h2] at h
          simp only [List.cons_append, List.nil_append] at h
          injection h with h3 _
          exact h1 h3
    | cons c y' =>
      rw [escape_cons, escape_cons, List.append_assoc, List.append_assoc] at h
      by_cases ha1 : a = qc
      · subst ha1
        by_cases hc1 : c = qc
        · subst hc1
          rw [escChar_qc] at h
          simp only [List.cons_append, List.nil_append] at h
          injection h with _ h
          injection h with _ h
          obtain ⟨hx, hr⟩ := ih y' r t h
          exact ⟨by rw [hx], hr⟩
        · by_cases hc2 : c = bsl
          · subst hc2
            rw [escChar_qc, escChar_bsl] at h
            simp only [List.cons_append, List.nil_append] at h
            injection h with _ h
            injection h with h _
            exact absurd h (by decide)
          · rw [escChar_qc, escChar_other hc1 hc2] at h
            simp only [List.cons_append, List.nil_append] at h
            injection h with h _
            exact absurd h.symm hc2
      · by_cases ha2 : a = bsl
        · subst ha2
          by_cases hc1 : c = qc
          · subst hc1
            rw [escChar_bsl, escChar_qc] at h
            simp only [List.cons_append, List.nil_append] at h
            injection h with _ h
            injection h with h _
            exact absurd h.symm (by decide)
          · by_cases hc2 : c = bsl
            · subst hc2
              rw [escChar_bsl] at h
              simp only [List.cons_append, List.nil_append] at h
              injection h with _ h
              injection h with _ h
              obtain ⟨hx, hr⟩ := ih y' r t h
              exact ⟨by rw [hx], hr⟩
            · rw [escChar_bsl, escChar_other hc1 hc2] at h
              simp only [List.cons_append, List.nil_append] at h
              injection h with h _
              exact absurd h.symm hc2
        · by_cases hc1 : c = qc
          · subst hc1
            rw [escChar_qc, escChar_other ha1 ha2] at h
            simp only [List.cons_append, List.nil_append] at h
            injection h with h _
            exact absurd h ha2
          · by_cases hc2 : c = bsl
            · subst hc2
              rw [escChar_bsl, escChar_other ha1 ha2] at h
              simp only [List.cons_append, List.nil_append] at h
              injection h with h _
              exact absurd h ha2
            · rw [escChar_other ha1 ha2, escChar_other hc1 hc2] at h
              simp only [List.cons_append, List.nil_append] at h
              injection h with hac h
              obtain ⟨hx, hr⟩ := ih y' r t h
              exact ⟨by rw [hac, hx], hr⟩

theorem boolLit_ne_comma (b : Bool) : ∀ c ∈ boolLit b, (c != ',') = true := by
  cases b <;> decide

theorem boolLit_inj {a b : Bool} (h : boolLit a = boolLit b) : a = b := by
  cases a <;> cases b
  · rfl
  · exact absurd h (by decide)
  · exact absurd h (by decide)
  · rfl

theorem litTier_shape : ("\",\"tier\":\"").toList = qc :: (",\"tier\":\"").toList := by decide

theorem litFounder_shape :
    ("\",\"isFounder\":").toList = qc :: (",\"isFounder\":").toList := by decide

theorem litIssued_shape : ((",\"issued\":").toList : Str) = ',' :: ("\"issued\":").toList := by
  decide

theorem litVersion_shape :
    ((",\"version\":\"").toList : Str) = ',' :: ("\"version\":\"").toList := by decide

theorem litClose_shape : ("\"\x7d").toList = qc :: ("\x7d").toList := by decide

theorem natDigits_forall_digits (n : Nat) : ∀ c ∈ natDigits n, isDigitCh c = true :=
  List.all_eq_true.mp (natDigits_all_digits n)

/-- `JSON.stringify` of the license payload is injective: two distinct
payloads never serialize to the same string, so any single-field change
changes the HMAC input. -/
theorem jsonSerialize_injective {p p' : LicensePayload}
    (h : jsonSerialize p = jsonSerialize p') : p = p' := by
  obtain ⟨cid, tier, f, issued, ver⟩ := p
  obtain ⟨cid', tier', f', issued', ver'⟩ := p'
  unfold jsonSerialize at h
  simp only [List.append_assoc] at h
  have h1 := List.append_cancel_left h
  rw [litTier_shape] at h1
  simp only [List.cons_append] at h1
  obtain ⟨hcid, h2⟩ := escape_quote_split _ _ _ _ h1
  have h3 := List.append_cancel_left h2
  rw [litFounder_shape] at h3
  simp only [List.cons_append] at h3
  obtain ⟨htier, h4⟩ := escape_quote_split _ _ _ _ h3
  have h5 := List.append_cancel_left h4
  rw [litIssued_shape] at h5
  simp only [List.cons_append] at h5
  obtain ⟨hf, h6⟩ := sep_split (fun c => c != ',') ',' (by decide) _ _ _ _
    (boolLit_ne_comma f) (boolLit_ne_comma f') h5
  have h7 := List.append_cancel_left h6
  rw [litVersion_shape] at h7
  simp only [List.cons_append] at h7
  obtain ⟨hissued, h8⟩ := sep_split isDigitCh ',' (by decide) _ _ _ _
    (natDigits_forall_digits issued) (natDigits_forall_digits issued') h7
  have h9 := List.append_cancel_left h8
  rw [litClose_shape] at h9
  obtain ⟨hver, _⟩ := escape_quote_split _ _ _ _ h9
  simp only [LicensePayload.mk.injEq]
  exact ⟨hcid, htier, boolLit_inj hf, natDigits_injective hissued, hver⟩

/-! ## Lemmas: signature verification -/

theorem signLicensePayload_ok {hmac : Str → Str → Str} {slug : Str} {env : EnvConfig}
    {secret : Str} (hsec : getSigningSecret slug env = .ok secret) (p : LicensePayload) :
    signLicensePayload hmac slug env p = .ok (hmac secret (jsonSerialize p)) := by
  unfold signLicensePayload
  rw [hsec]
  rfl

theorem verifyLicenseSignature_eq {hmac : Str → Str → Str} {slug : Str} {env : EnvConfig}
    {secret : Str} (hsec : getSigningSecret slug env = .ok secret)
    (p : LicensePayload) (s : Str) :
    verifyLicenseSignature hmac slug env p s = (s == hmac secret (jsonSerialize p)) := by
  unfold verifyLicenseSignature stripeVerifyLicenseSignature
  rw [signLicensePayload_ok hsec]
  show (if s.length != (hmac secret (jsonSerialize p)).length then false
        else timingSafeEqualModel s (hmac secret (jsonSerialize p)))
      = (s == hmac secret (jsonSerialize p))
  by_cases hse : s = hmac secret (jsonSerialize p)
  · subst hse
    simp [timingSafeEqualModel]
  · have hb : (s == hmac secret (jsonSerialize p)) = false := by
      simpa using hse
    rw [hb]
    split
    · rfl
    · simpa [timingSafeEqualModel] using hb

/-- C1: `verify(payload, signature)` (the licensing-side
`verifyLicenseSignature`, under a successfully configured secret) is
true iff the signature equals the hex HMAC-SHA256 of the JSON
serialization of the payload; every `generateLicenseKey` result
verifies; and — assuming the HMAC oracle is collision-free under this
secret — any modified payload with the old signature fails to verify
(any modification changes the serialization, by
`jsonSerialize_injective`). -/
theorem C1_license_signature_exact
    (hmac : Str → Str → Str) (sha256hex : Str → Str) (slug licPrefix : Str)
    (env : EnvConfig) (secret : Str)
    (hsec : getSigningSecret slug env = .ok secret)
    (hcoll : ∀ m₁ m₂ : Str, hmac secret m₁ = hmac secret m₂ → m₁ = m₂) :
    (∀ (p : LicensePayload) (s : Str),
        verifyLicenseSignature hmac slug env p s = true ↔ s = hmac secret (jsonSerialize p)) ∧
    (∀ (customerId tier : Str) (isFounder : Bool) (now : Nat), ∃ r,
        generateLicenseKey sha256hex hmac slug licPrefix env customerId tier isFounder now
          = .ok r ∧
        verifyLicenseSignature hmac slug env r.payload r.signature = true) ∧
    (∀ p p' : LicensePayload, p' ≠ p →
        verifyLicenseSignature hmac slug env p' (hmac secret (jsonSerialize p)) = false) := by
  refine ⟨?_, ?_, ?_⟩
  · intro p s
    rw [verifyLicenseSignature_eq hsec]
    exact beq_iff_eq
  · intro customerId tier isFounder now
    refine ⟨⟨formatLicenseKey licPrefix
        (sha256hex (licenseKeyHashInput slug customerId tier isFounder)),
      ⟨customerId, tier, isFounder, now, "1.0".toList⟩,
      hmac secret (jsonSerialize ⟨customerId, tier, isFounder, now, "1.0".toList⟩)⟩, ?_, ?_⟩
    · simp only [generateLicenseKey, signLicensePayload_ok hsec, Except.map]
    · rw [verifyLicenseSignature_eq hsec]
      exact beq_self_eq_true _
  · intro p p' hne
    rw [verifyLicenseSignature_eq hsec]
    refine beq_eq_false_iff_ne.mpr ?_
    intro heq
    exact hne (jsonSerialize_injective (hcoll _ _ heq)).symm

/-- C1 witness: concrete oracle (`hmac k m = k ++ m`, collision-free by
left cancellation), configured secret, and the scenario-4 tamper
(`tier` changed from `PRO` to `ENTERPRISE`, old signature reused):
verification rejects. -/
theorem C1_license_signature_exact_witness :
    verifyLicenseSignature (fun k m => k ++ m) ("app".toList)
      ⟨none, some ("sec".toList)⟩
      ⟨"cust_1".toList, "ENTERPRISE".toList, false, 1700000000000, "1.0".toList⟩
      ((fun (k m : Str) => k ++ m) ("sec".toList)
        (jsonSerialize ⟨"cust_1".toList, "PRO".toList, false, 1700000000000, "1.0".toList⟩))
      = false :=
  (C1_license_signature_exact (fun k m => k ++ m) (fun m => m) ("app".toList) ("VBL".toList)
      ⟨none, some ("sec".toList)⟩ ("sec".toList) (by decide)
      (fun _ _ h => List.append_cancel_left h)).2.2
    ⟨"cust_1".toList, "PRO".toList, false, 1700000000000, "1.0".toList⟩
    ⟨"cust_1".toList, "ENTERPRISE".toList, false, 1700000000000, "1.0".toList⟩
    (by decide)

/-- C6 (amended): the licensing-side `verifyLicenseSignature` never
throws: either the inner computation (shared with the stripe-integration
variant) throws the production-misconfiguration error — the only error
it can throw — and the licensing wrapper fails closed to `false`, or
the inner computation returns normally and the wrapper returns exactly
that boolean.  In particular the stripe-integration variant, lacking
the `try`/`catch`, propagates that one error instead of returning
`false`. -/
theorem C6_verify_fails_closed (hmac : Str → Str → Str) (slug : Str) (env : EnvConfig)
    (p : LicensePayload) (s : Str) :
    (stripeVerifyLicenseSignature hmac slug env p s
        = .error ("LICENSE_SIGNING_SECRET is required in production".toList)
      ∧ verifyLicenseSignature hmac slug env p s = false)
    ∨ stripeVerifyLicenseSignature hmac slug env p s
        = .ok (verifyLicenseSignature hmac slug env p s) := by
  by_cases hc : (env.nodeEnv == some ("production".toList) &&
      strIncludes (jsEnvOr env.licenseSigningSecret (devFallbackSecret slug))
        (devFallbackSecret slug)) = true
  · left
    have herr : getSigningSecret slug env
        = .error ("LICENSE_SIGNING_SECRET is required in production".toList) := by
      unfold getSigningSecret
      simp only [hc, if_true]
    constructor
    · unfold stripeVerifyLicenseSignature signLicensePayload
      rw [herr]
      rfl
    · unfold verifyLicenseSignature stripeVerifyLicenseSignature signLicensePayload
      rw [herr]
      rfl
  · right
    have hok : getSigningSecret slug env
        = .ok (jsEnvOr env.licenseSigningSecret (devFallbackSecret slug)) := by
      unfold getSigningSecret
      simp only [Bool.not_eq_true] at hc
      simp only [hc]
      rfl
    unfold verifyLicenseSignature stripeVerifyLicenseSignature signLicensePayload
    rw [hok]
    rfl

/-- C6 counterexample: in production with no configured secret, the
stripe-integration `verifyLicenseSignature` raises (propagates the
production-misconfiguration error) instead of returning the boolean
`false`, contradicting the claim for this cited implementation. -/
theorem C6_counterexample :
    stripeVerifyLicenseSignature (fun k m => k ++ m) ("app".toList)
      ⟨some ("production".toList), none⟩
      ⟨"c".toList, "PRO".toList, false, 5, "1.0".toList⟩ ("sig".toList)
      = .error ("LICENSE_SIGNING_SECRET is required in production".toList) := by
  decide

/-- C7 (amended): in production mode with the signing secret still
containing the development fallback, the secret lookup and every
signing attempt fail with an error at the point of use, and signature
verification fails closed to `false` — the service never signs or
verifies with the guessable default secret, but the refusal happens
lazily at first use, not as a process-aborting startup check. -/
theorem C7_production_fallback_refuses (hmac : Str → Str → Str) (sha256hex : Str → Str)
    (slug licPrefix : Str) (env : EnvConfig) (customerId tier : Str) (isFounder : Bool)
    (now : Nat) (p : LicensePayload) (s : Str)
    (hprod : env.nodeEnv = some ("production".toList))
    (hdev : strIncludes (jsEnvOr env.licenseSigningSecret (devFallbackSecret slug))
        (devFallbackSecret slug) = true) :
    getSigningSecret slug env
        = .error ("LICENSE_SIGNING_SECRET is required in production".toList)
    ∧ generateLicenseKey sha256hex hmac slug licPrefix env customerId tier isFounder now
        = .error ("LICENSE_SIGNING_SECRET is required in production".toList)
    ∧ verifyLicenseSignature hmac slug env p s = false := by
  have herr : getSigningSecret slug env
      = .error ("LICENSE_SIGNING_SECRET is required in production".toList) := by
    unfold getSigningSecret
    simp only [hprod, hdev, beq_self_eq_true, Bool.and_self, if_true]
  refine ⟨herr, ?_, ?_⟩
  · unfold generateLicenseKey signLicensePayload
    rw [herr]
    rfl
  · unfold verifyLicenseSignature stripeVerifyLicenseSignature signLicensePayload
    rw [herr]
    rfl

/-- C7 witness: concrete production environment with the fallback
secret; the secret lookup errors and verification returns `false`. -/
theorem C7_production_fallback_refuses_witness :
    getSigningSecret ("app".toList) ⟨some ("production".toList), none⟩
        = .error ("LICENSE_SIGNING_SECRET is required in production".toList)
    ∧ generateLicenseKey (fun m => m) (fun k m => k ++ m) ("app".toList) ("VBL".toList)
        ⟨some ("production".toList), none⟩ ("cust".toList) ("PRO".toList) false 0
        = .error ("LICENSE_SIGNING_SECRET is required in production".toList)
    ∧ verifyLicenseSignature (fun k m => k ++ m) ("app".toList)
        ⟨some ("production".toList), none⟩
        ⟨"c".toList, "PRO".toList, false, 5, "1.0".toList⟩ ("x".toList) = false :=
  C7_production_fallback_refuses (fun k m => k ++ m) (fun m => m) ("app".toList)
    ("VBL".toList) ⟨some ("production".toList), none⟩ ("cust".toList) ("PRO".toList) false 0
    ⟨"c".toList, "PRO".toList, false, 5, "1.0".toList⟩ ("x".toList) rfl (by decide)

/-- C7 counterexample: same production-with-fallback configuration, yet
`licensing.js`'s `verifyLicenseSignature` runs and returns the ordinary
value `false` (its own `catch` swallows the error): nothing
process-aborts at startup or at verification time. -/
theorem C7_counterexample :
    verifyLicenseSignature (fun k m => k ++ m) ("app".toList)
      ⟨some ("production".toList), none⟩
      ⟨"c".toList, "PRO".toList, false, 5, "1.0".toList⟩ ("sig".toList) = false := by
  decide

/-- C8: license issuance is deterministic in its key — two
`generateLicenseKey` calls with identical `(customerId, tier, isFounder)`
yield the identical license key and payloads agreeing on every field
except the issuance timestamp; and (assuming the HMAC oracle binds the
key: equal outputs on the same message force equal keys) two different
resolved signing secrets produce different signatures for identical
payloads. -/
theorem C8_issue_deterministic
    (sha256hex : Str → Str) (hmac : Str → Str → Str) (slug licPrefix : Str)
    (customerId tier : Str) (isFounder : Bool) (env1 env2 : EnvConfig) (s1 s2 : Str)
    (h1 : getSigningSecret slug env1 = .ok s1)
    (h2 : getSigningSecret slug env2 = .ok s2)
    (hkey : ∀ (k k' m : Str), hmac k m = hmac k' m → k = k') :
    (∀ (t1 t2 : Nat) (r1 r2 : GeneratedLicense),
        generateLicenseKey sha256hex hmac slug licPrefix env1 customerId tier isFounder t1
          = .ok r1 →
        generateLicenseKey sha256hex hmac slug licPrefix env1 customerId tier isFounder t2
          = .ok r2 →
        r1.licenseKey = r2.licenseKey ∧ r1.payload.customerId = r2.payload.customerId ∧
        r1.payload.tier = r2.payload.tier ∧ r1.payload.isFounder = r2.payload.isFounder ∧
        r1.payload.version = r2.payload.version)
    ∧ (∀ (t : Nat) (r1 r2 : GeneratedLicense), s1 ≠ s2 →
        generateLicenseKey sha256hex hmac slug licPrefix env1 customerId tier isFounder t
          = .ok r1 →
        generateLicenseKey sha256hex hmac slug licPrefix env2 customerId tier isFounder t
          = .ok r2 →
        r1.signature ≠ r2.signature) := by
  constructor
  · intro t1 t2 r1 r2 hr1 hr2
    simp only [generateLicenseKey, signLicensePayload_ok h1, Except.map,
      Except.ok.injEq] at hr1 hr2
    rw [← hr1, ← hr2]
    exact ⟨rfl, rfl, rfl, rfl, rfl⟩
  · intro t r1 r2 hne hr1 hr2
    simp only [generateLicenseKey, signLicensePayload_ok h1, signLicensePayload_ok h2,
      Except.map, Except.ok.injEq] at hr1 hr2
    rw [← hr1, ← hr2]
    intro heq
    exact hne (hkey _ _ _ heq)

/-- C8 witness: concrete oracles (`sha256hex = id`, `hmac k m = k ++ m`,
key-binding by right cancellation) and two environments resolving to the
distinct secrets `s1`, `s2`: the signatures of the two generated
licenses for the same payload differ. -/
theorem C8_issue_deterministic_witness :
    ({ licenseKey := formatLicenseKey ("VBL".toList)
          (licenseKeyHashInput ("app".toList) ("cust".toList) ("PRO".toList) false),
       payload := ⟨"cust".toList, "PRO".toList, false, 0, "1.0".toList⟩,
       signature := "s1".toList ++
          jsonSerialize ⟨"cust".toList, "PRO".toList, false, 0, "1.0".toList⟩ } :
        GeneratedLicense).signature ≠
    ({ licenseKey := formatLicenseKey ("VBL".toList)
          (licenseKeyHashInput ("app".toList) ("cust".toList) ("PRO".toList) false),
       payload := ⟨"cust".toList, "PRO".toList, false, 0, "1.0".toList⟩,
       signature := "s2".toList ++
          jsonSerialize ⟨"cust".toList, "PRO".toList, false, 0, "1.0".toList⟩ } :
        GeneratedLicense).signature :=
  (C8_issue_deterministic (fun m => m) (fun k m => k ++ m) ("app".toList) ("VBL".toList)
      ("cust".toList) ("PRO".toList) false
      ⟨none, some ("s1".toList)⟩ ⟨none, some ("s2".toList)⟩ ("s1".toList) ("s2".toList)
      (by decide) (by decide) (fun _ _ _ h => List.append_cancel_right h)).2
    0 _ _ (by decide) rfl rfl

/-- C9: `getLicenseInfo` is total and degrades to the FREE tier: for
every environment (developer mode, absent/unreadable/malformed/stored
license file, any expiry and signature state) it returns a record with
`valid = true`, and whenever it reports an error (invalid format,
expired, tampered signature, invalid key, read error) the tier is FREE
— a tampered license is observationally a FREE license, never a
rejection or an exception. -/
theorem C9_getLicenseInfo_total_free (hmac : Str → Str → Str) (slug licPrefix : Str)
    (env : EnvConfig) (lenv : LicEnvironment) :
    (getLicenseInfo hmac slug licPrefix env lenv).valid = true ∧
    ((getLicenseInfo hmac slug licPrefix env lenv).error.isSome = true →
      (getLicenseInfo hmac slug licPrefix env lenv).tier = "FREE".toList) := by
  simp only [getLicenseInfo]
  repeat' split
  all_goals simp

/-- C9 witness: a stored license whose signature fails verification
(tampered): the result is valid, reports an error, and has tier FREE. -/
theorem C9_getLicenseInfo_total_free_witness :
    (getLicenseInfo (fun k m => k ++ m) ("app".toList) ("VBL".toList)
        ⟨none, some ("sec".toList)⟩
        ⟨false, .stored ⟨some ("PRO".toList), some ("K".toList), none, some ("e@x".toList),
            none, none, none, some ⟨"c".toList, "PRO".toList, false, 5, "1.0".toList⟩,
            some ("tampered".toList)⟩,
          fun _ => none, 0⟩).valid = true ∧
    (getLicenseInfo (fun k m => k ++ m) ("app".toList) ("VBL".toList)
        ⟨none, some ("sec".toList)⟩
        ⟨false, .stored ⟨some ("PRO".toList), some ("K".toList), none, some ("e@x".toList),
            none, none, none, some ⟨"c".toList, "PRO".toList, false, 5, "1.0".toList⟩,
            some ("tampered".toList)⟩,
          fun _ => none, 0⟩).tier = "FREE".toList :=
  ⟨(C9_getLicenseInfo_total_free (fun k m => k ++ m) ("app".toList) ("VBL".toList)
      ⟨none, some ("sec".toList)⟩ _).1,
   (C9_getLicenseInfo_total_free (fun k m => k ++ m) ("app".toList) ("VBL".toList)
      ⟨none, some ("sec".toList)⟩ _).2 (by decide)⟩

theorem length_four_destruct (l : Str) (h : l.length = 4) : ∃ a b c d, l = [a, b, c, d] := by
  rcases l with _ | ⟨a, l⟩
  · simp at h
  rcases l with _ | ⟨b, l⟩
  · simp at h
  rcases l with _ | ⟨c, l⟩
  · simp at h
  rcases l with _ | ⟨d, l⟩
  · simp at h
  rcases l with _ | ⟨e, l⟩
  · exact ⟨a, b, c, d, rfl⟩
  · simp [List.length_cons] at h

/-- C10: the legacy key check accepts on format alone — any key of the
form `LICENSE_PREFIX-XXXX-XXXX-XXXX-XXXX` with four groups of four
uppercase-hex characters makes `validateLicenseKey` return `true` for
every tier argument; no signature, secret, customer record or tier
consistency is consulted on this path. -/
theorem C10_stripe_format_accepts
    (licPrefix tier g1 g2 g3 g4 : Str)
    (h1 : g1.length = 4) (h2 : g2.length = 4) (h3 : g3.length = 4) (h4 : g4.length = 4)
    (hx1 : g1.all isHexUpperDigit = true) (hx2 : g2.all isHexUpperDigit = true)
    (hx3 : g3.all isHexUpperDigit = true) (hx4 : g4.all isHexUpperDigit = true) :
    validateLicenseKey licPrefix
      (licPrefix ++ '-' :: (g1 ++ '-' :: (g2 ++ '-' :: (g3 ++ '-' :: g4)))) tier = true := by
  obtain ⟨a1, a2, a3, a4, rfl⟩ := length_four_destruct g1 h1
  obtain ⟨b1, b2, b3, b4, rfl⟩ := length_four_destruct g2 h2
  obtain ⟨c1, c2, c3, c4, rfl⟩ := length_four_destruct g3 h3
  obtain ⟨d1, d2, d3, d4, rfl⟩ := length_four_destruct g4 h4
  have hkey : licPrefix ++ '-' :: ([a1, a2, a3, a4] ++ '-' :: ([b1, b2, b3, b4] ++ '-' ::
      ([c1, c2, c3, c4] ++ '-' :: [d1, d2, d3, d4])))
      = (licPrefix ++ ['-']) ++ [a1, a2, a3, a4, '-', b1, b2, b3, b4, '-',
          c1, c2, c3, c4, '-', d1, d2, d3, d4] := by
    simp
  have hfmt : stripeFormatTest licPrefix
      (licPrefix ++ '-' :: ([a1, a2, a3, a4] ++ '-' :: ([b1, b2, b3, b4] ++ '-' ::
        ([c1, c2, c3, c4] ++ '-' :: [d1, d2, d3, d4])))) = true := by
    unfold stripeFormatTest
    rw [hkey]
    have hdrop : ((licPrefix ++ ['-']) ++ [a1, a2, a3, a4, '-', b1, b2, b3, b4, '-',
        c1, c2, c3, c4, '-', d1, d2, d3, d4]).drop (licPrefix.length + 1)
        = [a1, a2, a3, a4, '-', b1, b2, b3, b4, '-', c1, c2, c3, c4, '-', d1, d2, d3, d4] := by
      have hlen : licPrefix.length + 1 = (licPrefix ++ ['-']).length := by simp
      rw [hlen, List.drop_left]
    rw [hdrop, isPrefixOf_append_left]
    simp only [Bool.true_and]
    simp only [stripeKeyTail]
    simp only [List.all_cons, List.all_nil] at hx1 hx2 hx3 hx4 ⊢
    simp_all
  unfold validateLicenseKey
  rw [hfmt]
  rfl

/-- C10 witness: a concrete well-formed key is accepted with a
mismatching tier argument. -/
theorem C10_stripe_format_accepts_witness :
    validateLicenseKey ("VBL".toList)
      (("VBL".toList) ++ '-' :: (("ABCD".toList) ++ '-' :: (("0123".toList) ++ '-' ::
        (("4567".toList) ++ '-' :: ("89EF".toList))))) ("ENTERPRISE".toList) = true :=
  C10_stripe_format_accepts ("VBL".toList) ("ENTERPRISE".toList)
    ("ABCD".toList) ("0123".toList) ("4567".toList) ("89EF".toList)
    (by decide) (by decide) (by decide) (by decide)
    (by decide) (by decide) (by decide) (by decide)

/-- Shared helper: a resolution containing a blocked address forces
`validateURL` to reject (whichever earlier check fires first). -/
theorem validateURL_false_of_blocked_resolution
    (u : URLRec) (options : SSRFOptions) (dnsEnv : Str → DNSOutcome)
    (addrs : List Str) (a : Str)
    (hpriv : (mergeOptions options).blockPrivateIPs = true)
    (hdns : dnsEnv u.hostname = .success addrs)
    (hmem : a ∈ addrs)
    (hblocked : isBlockedIP a (mergeOptions options).blockMetadataEndpoints = true) :
    (validateURL (some u) options dnsEnv).valid = false := by
  have hany : addrs.any
      (fun x => isBlockedIP x (mergeOptions options).blockMetadataEndpoints) = true :=
    List.any_eq_true.mpr ⟨a, hmem, hblocked⟩
  simp only [validateURL]
  split
  · rfl
  · split
    · rfl
    · split
      · rfl
      · split
        · rfl
        · split
          · rfl
          · rename_i heq
            rw [hdns] at heq
            simp [validateDNS, hany] at heq

/-- C2: if the hostname's DNS resolution yields a set of addresses of
which at least one is blocked — even when other resolved addresses are
public and unblocked — `validateURL` (with private-IP blocking on)
returns `valid = false`. -/
theorem C2_any_blocked_address_rejects
    (u : URLRec) (options : SSRFOptions) (dnsEnv : Str → DNSOutcome)
    (addrs : List Str) (a : Str)
    (hpriv : (mergeOptions options).blockPrivateIPs = true)
    (hdns : dnsEnv u.hostname = .success addrs)
    (hmem : a ∈ addrs)
    (hblocked : isBlockedIP a (mergeOptions options).blockMetadataEndpoints = true) :
    (validateURL (some u) options dnsEnv).valid = false :=
  validateURL_false_of_blocked_resolution u options dnsEnv addrs a hpriv hdns hmem hblocked

/-- C2 witness: a hostname resolving to a public address and the
private address `192.168.1.7`; validation rejects the URL. -/
theorem C2_any_blocked_address_rejects_witness :
    (validateURL (some ⟨"http:".toList, "dual.example".toList, none⟩) {}
      (fun _ => .success ["93.184.216.34".toList, "192.168.1.7".toList])).valid = false :=
  C2_any_blocked_address_rejects ⟨"http:".toList, "dual.example".toList, none⟩ {}
    (fun _ => .success ["93.184.216.34".toList, "192.168.1.7".toList])
    ["93.184.216.34".toList, "192.168.1.7".toList] ("192.168.1.7".toList)
    (by decide) rfl (by decide) (by decide)

/-! ## Lemmas: the C3 hostname families are blocked -/

theorem isBlockedHostname_of_localhostFamily (h : Str) (bm : Bool)
    (hl : isLocalhostFamily h = true) : isBlockedHostname h bm = true := by
  unfold isBlockedHostname
  show (if bm then BLOCKED_HOSTNAMES ++ METADATA_HOSTNAMES else BLOCKED_HOSTNAMES).any
    (fun blocked => lowerStr h == blocked || ('.' :: blocked).isSuffixOf (lowerStr h)) = true
  refine List.any_eq_true.mpr ⟨"localhost".toList, ?_, hl⟩
  cases bm <;> simp [BLOCKED_HOSTNAMES, METADATA_HOSTNAMES]

theorem isBlockedIP_intro (ip : Str) (bm : Bool) (pat : Str → Bool)
    (hmem : pat ∈ BLOCKED_IP_RANGES) (hpat : pat ip = true) : isBlockedIP ip bm = true := by
  unfold isBlockedIP
  refine List.any_eq_true.mpr ⟨pat, ?_, hpat⟩
  cases bm
  · exact hmem
  · exact List.mem_append.mpr (Or.inl hmem)

theorem re127_ipLiteral (b c d : Nat) : re127 (ipLiteral 127 b c d) = true := by
  unfold re127 ipLiteral
  rw [show natDigits 127 = ['1', '2', '7'] from by decide,
    show ("127.".toList : Str) = ['1', '2', '7', '.'] from by decide]
  simp only [List.cons_append, List.nil_append, List.append_assoc]
  simp [List.isPrefixOf]

theorem re10_ipLiteral (b c d : Nat) : re10 (ipLiteral 10 b c d) = true := by
  unfold re10 ipLiteral
  rw [show natDigits 10 = ['1', '0'] from by decide,
    show ("10.".toList : Str) = ['1', '0', '.'] from by decide]
  simp only [List.cons_append, List.nil_append, List.append_assoc]
  simp [List.isPrefixOf]

theorem re192168_ipLiteral (c d : Nat) : re192168 (ipLiteral 192 168 c d) = true := by
  unfold re192168 ipLiteral
  rw [show natDigits 192 = ['1', '9', '2'] from by decide,
    show natDigits 168 = ['1', '6', '8'] from by decide,
    show ("192.168.".toList : Str) = ['1', '9', '2', '.', '1', '6', '8', '.'] from by decide]
  simp only [List.cons_append, List.nil_append, List.append_assoc]
  simp [List.isPrefixOf]

theorem pair172_ok : ∀ b : Fin 32, 16 ≤ b.val → digitsPair172OK (natDigits b.val) = true := by
  decide

theorem re172_ipLiteral (b c d : Nat) (h16 : 16 ≤ b) (h31 : b ≤ 31) :
    re172 (ipLiteral 172 b c d) = true := by
  have hp := pair172_ok ⟨b, by omega⟩ h16
  rcases hnb : natDigits b with _ | ⟨x, _ | ⟨y, _ | ⟨z, l⟩⟩⟩
  · rw [hnb] at hp
    simp [digitsPair172OK] at hp
  · rw [hnb] at hp
    simp [digitsPair172OK] at hp
  · rw [hnb] at hp
    simp only [digitsPair172OK] at hp
    unfold re172 ipLiteral
    rw [hnb, show natDigits 172 = ['1', '7', '2'] from by decide]
    simp only [List.cons_append, List.nil_append, List.append_assoc]
    exact hp
  · rw [hnb] at hp
    simp [digitsPair172OK] at hp

theorem isBlockedIP_metadataHost (bm : Bool) :
    isBlockedIP ("169.254.169.254".toList) bm = true := by
  cases bm <;> decide

theorem ipLiteral_blocked (a b c d : Nat) (bm : Bool)
    (hr : a = 127 ∨ a = 10 ∨ (a = 192 ∧ b = 168) ∨ (a = 172 ∧ 16 ≤ b ∧ b ≤ 31)) :
    isBlockedIP (ipLiteral a b c d) bm = true := by
  rcases hr with rfl | rfl | ⟨rfl, rfl⟩ | ⟨rfl, h16, h31⟩
  · exact isBlockedIP_intro _ _ re127 (by simp [BLOCKED_IP_RANGES]) (re127_ipLiteral b c d)
  · exact isBlockedIP_intro _ _ re10 (by simp [BLOCKED_IP_RANGES]) (re10_ipLiteral b c d)
  · exact isBlockedIP_intro _ _ re192168 (by simp [BLOCKED_IP_RANGES]) (re192168_ipLiteral c d)
  · exact isBlockedIP_intro _ _ re172 (by simp [BLOCKED_IP_RANGES])
      (re172_ipLiteral b c d h16 h31)

/-- C3: under the default blocking options (private-IP and metadata
blocking on, any `allowedDomains` / `allowedPorts`), every URL whose
hostname is `localhost` or a subdomain of it (case-insensitively), or an
IPv4 literal in 127.0.0.0/8, 10.0.0.0/8, 192.168.0.0/16 or
172.16.0.0/12, or the metadata IP `169.254.169.254`, is rejected.  (An
IP-literal hostname reaches the blocklist through the DNS step, so the
environment hypothesis records that the lookup of an IP literal returns
the literal itself, which is how `dns.lookup` behaves.) -/
theorem C3_default_blocks_local_hosts
    (u : URLRec) (options : SSRFOptions) (dnsEnv : Str → DNSOutcome)
    (hpriv : (mergeOptions options).blockPrivateIPs = true)
    (hmeta : (mergeOptions options).blockMetadataEndpoints = true)
    (hhost : isLocalhostFamily u.hostname = true
      ∨ (∃ a b c d : Nat, a ≤ 255 ∧ b ≤ 255 ∧ c ≤ 255 ∧ d ≤ 255 ∧
          u.hostname = ipLiteral a b c d ∧
          (a = 127 ∨ a = 10 ∨ (a = 192 ∧ b = 168) ∨ (a = 172 ∧ 16 ≤ b ∧ b ≤ 31)))
      ∨ u.hostname = "169.254.169.254".toList)
    (hdns : dnsEnv u.hostname = .success [u.hostname]) :
    (validateURL (some u) options dnsEnv).valid = false := by
  rcases hhost with hl | ⟨a, b, c, d, _, _, _, _, hhn, hr⟩ | hm
  · simp only [validateURL]
    split
    · rfl
    · rw [isBlockedHostname_of_localhostFamily u.hostname
        (mergeOptions options).blockMetadataEndpoints hl]
      simp
  · refine validateURL_false_of_blocked_resolution u options dnsEnv [u.hostname] u.hostname
      hpriv hdns (by simp) ?_
    rw [hhn]
    exact ipLiteral_blocked a b c d _ hr
  · refine validateURL_false_of_blocked_resolution u options dnsEnv [u.hostname] u.hostname
      hpriv hdns (by simp) ?_
    rw [hm]
    exact isBlockedIP_metadataHost _

/-- C3 witness: `http://10.0.0.1` under default options with the
self-resolving DNS environment is rejected. -/
theorem C3_default_blocks_local_hosts_witness :
    (validateURL (some ⟨"http:".toList, "10.0.0.1".toList, none⟩) {}
      (fun h => .success [h])).valid = false :=
  C3_default_blocks_local_hosts ⟨"http:".toList, "10.0.0.1".toList, none⟩ {}
    (fun h => .success [h]) (by decide) (by decide)
    (Or.inr (Or.inl ⟨10, 0, 0, 1, by decide, by decide, by decide, by decide,
      by decide, Or.inr (Or.inl rfl)⟩))
    rfl

/-- C4 (amended): when the DNS lookup times out (the `withTimeout`
rejection), `validateURL` — having passed the earlier checks — returns
an ordinary rejection result, but its error is the generic
`'Failed to resolve hostname'`: the `catch` in `validateDNS` swallows
the distinct `'DNS lookup timeout'` message, which only reaches the
log, so timeouts are not distinguished from other resolver failures in
the returned value. -/
theorem C4_timeout_generic_error
    (u : URLRec) (options : SSRFOptions) (dnsEnv : Str → DNSOutcome)
    (hproto : validateProtocol u = none)
    (hhost : isBlockedHostname u.hostname (mergeOptions options).blockMetadataEndpoints = false)
    (hport : validatePort u (mergeOptions options).allowedPorts = none)
    (hdom : validateDomain u (mergeOptions options).allowedDomains = none)
    (hpriv : (mergeOptions options).blockPrivateIPs = true)
    (hdns : dnsEnv u.hostname = .timeout) :
    validateURL (some u) options dnsEnv
      = { valid := false, error := some ("Failed to resolve hostname".toList) } := by
  simp only [validateURL, hproto, hhost, hport, hdom, hpriv, hdns, validateDNS]
  simp

/-- C4 witness: a concrete URL whose lookup times out: the rejection
carries the generic resolver-failure reason. -/
theorem C4_timeout_generic_error_witness :
    validateURL (some ⟨"http:".toList, "unreachable.example".toList, none⟩) {}
      (fun _ => .timeout)
      = { valid := false, error := some ("Failed to resolve hostname".toList) } :=
  C4_timeout_generic_error ⟨"http:".toList, "unreachable.example".toList, none⟩ {}
    (fun _ => .timeout) (by decide) (by decide) (by decide) (by decide) (by decide) rfl

/-- C4 counterexample: at this concrete input the claim's asserted
distinct reason `'DNS lookup timeout'` is not what `validateURL`
returns — the error is `'Failed to resolve hostname'`, the same string
as for any other resolver failure. -/
theorem C4_counterexample :
    (validateURL (some ⟨"http:".toList, "unreachable.example".toList, none⟩) {}
        (fun _ => .timeout)).error = some ("Failed to resolve hostname".toList)
    ∧ (validateURL (some ⟨"http:".toList, "unreachable.example".toList, none⟩) {}
        (fun _ => .timeout)).error ≠ some ("DNS lookup timeout".toList)
    ∧ (validateURL (some ⟨"http:".toList, "resolver-error.example".toList, none⟩) {}
        (fun _ => .failure)).error
      = (validateURL (some ⟨"http:".toList, "unreachable.example".toList, none⟩) {}
        (fun _ => .timeout)).error := by
  refine ⟨by decide, by decide, by decide⟩

/-- C5: the lookup function installed by `createPinnedLookup` /
`createPinnedAgent` never consults DNS — it is a pure round-robin over
the validated address list: its `n`-th invocation (counting from 0)
answers exactly `addresses[n % addresses.length]`, which is always a
member of the validated list. -/
theorem C5_pinned_lookup_round_robin (addresses : List Str) (n : Nat)
    (hne : addresses ≠ []) :
    ∃ hlt : n % addresses.length < addresses.length,
      nthPinnedAddress addresses n = some (addresses.get ⟨n % addresses.length, hlt⟩)
      ∧ createPinnedAgent (some addresses) = some addresses
      ∧ ∀ x, nthPinnedAddress addresses n = some x → x ∈ addresses := by
  have hpos : 0 < addresses.length := List.length_pos.mpr hne
  have hlt : n % addresses.length < addresses.length := Nat.mod_lt n hpos
  have hidx : ∀ m, pinnedIndexAfter addresses m = m := by
    intro m
    induction m with
    | zero => rfl
    | succ m ih => simp [pinnedIndexAfter, pinnedCall, ih]
  have hval : nthPinnedAddress addresses n
      = some (addresses.get ⟨n % addresses.length, hlt⟩) := by
    unfold nthPinnedAddress pinnedCall
    rw [hidx n]
    simp [List.getElem?_eq_getElem hlt]
  refine ⟨hlt, hval, ?_, ?_⟩
  · unfold createPinnedAgent
    cases addresses with
    | nil => exact absurd rfl hne
    | cons a rest => rfl
  · intro x hx
    rw [hval] at hx
    injection hx with hx
    rw [← hx]
    exact List.get_mem _ _ _

/-- C5 witness: with two pinned addresses, the 3rd invocation (index 3)
cycles back to the second address, a member of the validated list. -/
theorem C5_pinned_lookup_round_robin_witness :
    ∃ hlt : 3 % (["93.184.216.34".toList, "93.184.216.35".toList] : List Str).length
        < (["93.184.216.34".toList, "93.184.216.35".toList] : List Str).length,
      nthPinnedAddress ["93.184.216.34".toList, "93.184.216.35".toList] 3
        = some ((["93.184.216.34".toList, "93.184.216.35".toList] : List Str).get
            ⟨3 % (["93.184.216.34".toList, "93.184.216.35".toList] : List Str).length, hlt⟩)
      ∧ createPinnedAgent (some ["93.184.216.34".toList, "93.184.216.35".toList])
          = some ["93.184.216.34".toList, "93.184.216.35".toList]
      ∧ ∀ x, nthPinnedAddress ["93.184.216.34".toList, "93.184.216.35".toList] 3 = some x →
          x ∈ (["93.184.216.34".toList, "93.184.216.35".toList] : List Str) :=
  C5_pinned_lookup_round_robin ["93.184.216.34".toList, "93.184.216.35".toList] 3 (by decide)
